import Mathlib

/-!
Shallow embedding of the structured-extraction / time-range-aggregation
core of the repository (the `custom_sum`, `get_sum` and ledger-append
logic), together with theorems settling the specification's claims.

Dates are modelled as year/month/day triples of naturals; a ledger cell
in the `Date` column is either a raw string (as read from CSV) or an
already-parsed datetime, mirroring pandas' in-place
`expenses_df['Date'] = pd.to_datetime(expenses_df['Date'])` conversion.
Prices are exact rationals (the observed decimal sums).
-/

namespace Gpt4o

/-- Calendar date as stored in a pandas datetime: year, month, day. -/
structure EDate where
  year : Nat
  month : Nat
  day : Nat
deriving DecidableEq, Repr

/-- Chronological comparison of dates (lexicographic on year, month, day),
which coincides with pandas Timestamp ordering for valid dates. -/
def EDate.le (a b : EDate) : Bool :=
  Nat.blt a.year b.year ||
    (a.year == b.year && (Nat.blt a.month b.month ||
      (a.month == b.month && Nat.ble a.day b.day)))

/-- Value held by a cell of the ledger's `Date` column: either the raw
string read from CSV, or the datetime produced by `pd.to_datetime`. -/
inductive DateVal where
  | raw (s : String)
  | dt (d : EDate)
deriving DecidableEq, Repr

/-- One row of the expenses ledger, with the CSV columns
`Date, Vendor, Name, Quantity, Price, Category, Payment method`. -/
structure ExpenseRow where
  date : DateVal
  vendor : String
  name : String
  quantity : Int
  price : Rat
  category : String
  payment_method : String

/-- Split of a character list at each dash, the tokenization step of
parsing a `YYYY-MM-DD` date string. -/
def splitDashAux : List Char → List Char → List (List Char)
  | [], acc => [acc.reverse]
  | c :: rest, acc =>
    if c = '-' then acc.reverse :: splitDashAux rest []
    else splitDashAux rest (c :: acc)

/-- Numeric value of a decimal digit character, `none` otherwise. -/
def digitVal (c : Char) : Option Nat :=
  if c.isDigit then some (c.toNat - 48) else none

/-- Accumulating decimal read of a digit string. -/
def digitsToNatAux : List Char → Nat → Option Nat
  | [], acc => some acc
  | c :: rest, acc =>
    match digitVal c with
    | some v => digitsToNatAux rest (acc * 10 + v)
    | none => none

/-- Decimal read of a nonempty digit string, `none` on a malformed one. -/
def digitsToNat : List Char → Option Nat
  | [] => none
  | cs => digitsToNatAux cs 0

/-- Parse of an ISO-like `YYYY-MM-DD` string, modelling the successful
cases of `pd.to_datetime` on the date strings this repository uses. -/
def parseDate (s : String) : Option EDate :=
  match splitDashAux s.toList [] with
  | [y, m, d] =>
    match digitsToNat y, digitsToNat m, digitsToNat d with
    | some yn, some mn, some dn => some ⟨yn, mn, dn⟩
    | _, _, _ => none
  | _ => none

/-- Conversion `pd.to_datetime` applied to one `Date` cell: an
already-parsed datetime is kept, a raw string is parsed (or fails). -/
def toDatetime : DateVal → Option EDate
  | .raw s => parseDate s
  | .dt d => some d

/-- Effect of the datetime conversion on one row: only the `Date` cell
changes, becoming the parsed datetime. -/
def convertRow (r : ExpenseRow) : Option ExpenseRow :=
  (toDatetime r.date).map fun d => { r with date := .dt d }

/-- Column-wise `expenses_df['Date'] = pd.to_datetime(expenses_df['Date'])`:
every row's `Date` cell is converted; any unparseable cell raises. -/
def convertDates : List ExpenseRow → Option (List ExpenseRow)
  | [] => some []
  | r :: rest =>
    match convertRow r, convertDates rest with
    | some r', some rest' => some (r' :: rest')
    | _, _ => none

/-- Evaluation of a date predicate on a `Date` cell (after conversion
every cell is a datetime; a raw cell never matches). -/
def dateMatches (p : EDate → Bool) : DateVal → Bool
  | .dt d => p d
  | .raw _ => false

/-- The `time_range` dictionary passed to `custom_sum`: each recognized
key is present (`some`) or absent (`none`). Date-valued keys carry the
string given in the JSON arguments; `month` and `year` carry integers. -/
structure TimeRange where
  specific_date : Option String := none
  start_date : Option String := none
  end_date : Option String := none
  month : Option Int := none
  year : Option Int := none
deriving DecidableEq, Repr

/-- Failure modes of `custom_sum`: a `pd.to_datetime` parse failure, or
the `ValueError("Invalid time specification.")` raised when no
recognized key combination is present. -/
inductive CSError where
  | parseError
  | invalidTimeRange
deriving DecidableEq, Repr

/-- Branch selection of `custom_sum`'s if/elif chain: the date predicate
used to filter the DataFrame, or the error the chain raises. Mirrors the
source order: `specific_date`; else `start_date` and `end_date`; else
`month` and `year`; else `year`; else `ValueError`. -/
def selectPred (tr : TimeRange) : Except CSError (EDate → Bool) :=
  match tr.specific_date with
  | some s =>
    match parseDate s with
    | some d => .ok fun x => x == d
    | none => .error .parseError
  | none =>
    match tr.start_date, tr.end_date with
    | some s, some e =>
      match parseDate s, parseDate e with
      | some ds, some de => .ok fun x => EDate.le ds x && EDate.le x de
      | _, _ => .error .parseError
    | _, _ =>
      match tr.month, tr.year with
      | some m, some y => .ok fun x => ((x.month : Int) == m) && ((x.year : Int) == y)
      | _, _ =>
        match tr.year with
        | some y => .ok fun x => (x.year : Int) == y
        | none => .error .invalidTimeRange

/-- Sum of the `Price` column, `filtered_df['Price'].sum()`
(`0` on an empty frame). -/
def priceSum (df : List ExpenseRow) : Rat :=
  (df.map ExpenseRow.price).sum

/-- The `custom_sum(time_range, expenses_df)` function of
`utils/custom_sum.py`. It first converts the `Date` column to datetimes
in place (mutating the caller's DataFrame), then filters by the if/elif
chain and sums `Price`. The result pairs the post-call state of
`expenses_df` with either the sum or the raised error. -/
def custom_sum (tr : TimeRange) (df : List ExpenseRow) :
    List ExpenseRow × Except CSError Rat :=
  match convertDates df with
  | none => (df, .error .parseError)
  | some df' =>
    match selectPred tr with
    | .error e => (df', .error e)
    | .ok p => (df', .ok (priceSum (df'.filter fun r => dateMatches p r.date)))

/-- Sample two-row ledger from the spec's scenario: a 49.90 purchase on
2024-05-11 and a 22.73 purchase on 2024-05-16, as read from CSV. -/
def row1 : ExpenseRow :=
  { date := .raw "2024-05-11", vendor := "", name := "", quantity := 1,
    price := 499/10, category := "", payment_method := "" }

/-- Second sample row, the 22.73 purchase on 2024-05-16. -/
def row2 : ExpenseRow :=
  { date := .raw "2024-05-16", vendor := "", name := "", quantity := 1,
    price := 2273/100, category := "", payment_method := "" }

/-- The two-record sample ledger. -/
def sampleDf : List ExpenseRow := [row1, row2]

/-- The sample ledger after the in-place datetime conversion performed
by `custom_sum`. -/
def sampleConv : List ExpenseRow :=
  [{ row1 with date := .dt ⟨2024, 5, 11⟩ }, { row2 with date := .dt ⟨2024, 5, 16⟩ }]

/-- Python exceptions observable from `get_sum`: `TypeError` from
subscripting `None`, `IndexError` from subscripting an empty list,
`json.JSONDecodeError` from `json.loads`, and any exception propagating
out of the `custom_sum` call. -/
inductive PyError where
  | typeError
  | indexError
  | jsonDecodeError
  | aggregator (e : CSError)
deriving DecidableEq, Repr

/-- The `function` member of a tool call: the tool's name and its
JSON-encoded arguments string. -/
structure ToolFunction where
  name : String
  arguments : String
deriving DecidableEq, Repr

/-- One tool call in the remote reply. -/
structure ToolCall where
  function : ToolFunction
deriving DecidableEq, Repr

/-- The message of a choice in the remote reply: plain text content
and/or a list of tool calls (`None` when no tool is invoked). -/
structure ChatMessage where
  content : Option String
  tool_calls : Option (List ToolCall)
deriving DecidableEq, Repr

/-- One choice of the remote reply. -/
structure Choice where
  message : ChatMessage
deriving DecidableEq, Repr

/-- The remote reply: a list of choices. -/
structure ChatResponse where
  choices : List Choice
deriving DecidableEq, Repr

/-- The `get_sum(message, expenses_df)` function of `utils/get_sum.py`,
from the point where the remote reply is in hand. `json_loads` stands
for the external `json.loads` decoding of the arguments string into a
`time_range` dictionary. The source first executes
`print(f"time_range: {response.choices[0].message.tool_calls[0].function.arguments}")`
unconditionally, so a reply without tool calls raises before the
`tool_calls is not None` guard is reached. The result pairs the
post-call ledger state with the returned value (`some` sum, or `none`
from the warning branch) or the raised exception. -/
def get_sum (json_loads : String → Option TimeRange) (resp : ChatResponse)
    (df : List ExpenseRow) : List ExpenseRow × Except PyError (Option Rat) :=
  match resp.choices with
  | [] => (df, .error .indexError)
  | choice :: _ =>
    match choice.message.tool_calls with
    | none => (df, .error .typeError)
    | some [] => (df, .error .indexError)
    | some (tc :: _) =>
      if tc.function.name == "custom_sum" then
        match json_loads tc.function.arguments with
        | none => (df, .error .jsonDecodeError)
        | some tr =>
          match custom_sum tr df with
          | (df', .ok s) => (df', .ok (some s))
          | (df', .error e) => (df', .error (.aggregator e))
      else
        (df, .ok none)

/-- One element of the `items` array of the parsed receipt payload;
every field the extraction schema declares may be absent. -/
structure ReceiptItem where
  name : Option String
  price : Option Rat
  quantity : Option Int
  category : Option String

/-- The parsed receipt payload (`receipt_data`), with an `items` list
and possibly-absent scalar fields. -/
structure ReceiptData where
  vendor : Option String
  date : Option String
  items : List ReceiptItem
  payment_method : Option String

/-- One row appended to the ledger by the notebook's `new_rows` loop,
with the CSV column values it fills in. -/
structure NewRow where
  date : String
  vendor : String
  name : String
  quantity : Int
  price : Rat
  category : String
  payment_method : String

/-- Exception raised by the `new_rows` loop: the `KeyError` from the
unguarded `item['name']` subscript in the progress print. -/
inductive NbError where
  | keyError
deriving DecidableEq, Repr

/-- Category enum declared for receipt items in the `itemize_receipt`
extraction schema. -/
def itemizeCategories : List String :=
  ["take-out", "meal", "groceries", "clothing", "electronics", "supplies", "other"]

/-- Payment-method enum declared in the `itemize_receipt` extraction
schema. -/
def paymentMethods : List String :=
  ["cash", "credit", "debit", "mobile", "other"]

/-- The `new_row` dictionary built for one item: each field is the
payload's value or the fixed default used by `.get`. `today` stands for
`date.today().isoformat()`. -/
def makeNewRow (today : String) (rd : ReceiptData) (item : ReceiptItem) : NewRow :=
  { date := rd.date.getD today,
    vendor := rd.vendor.getD "",
    name := item.name.getD "",
    quantity := item.quantity.getD 1,
    price := item.price.getD 0,
    category := item.category.getD "Uncategorized",
    payment_method := rd.payment_method.getD "Unknown" }

/-- The `for item in receipt_data['items']` loop: each iteration first
prints `item['name']` (raising `KeyError` when the key is absent) and
then appends the built row. -/
def appendLoop (today : String) (rd : ReceiptData) :
    List ReceiptItem → Except NbError (List NewRow)
  | [] => .ok []
  | item :: rest =>
    match item.name with
    | none => .error .keyError
    | some _ =>
      match appendLoop today rd rest with
      | .ok rows => .ok (makeNewRow today rd item :: rows)
      | .error e => .error e

/-- The complete `new_rows` construction of the notebook's append cell. -/
def buildNewRows (today : String) (rd : ReceiptData) : Except NbError (List NewRow) :=
  appendLoop today rd rd.items

/-- Relation between a ledger row and its image under the in-place
datetime conversion: every column other than `Date` is unchanged, and
the `Date` cell becomes the datetime the original cell denotes. -/
def convertedFrom (a b : ExpenseRow) : Prop :=
  b.vendor = a.vendor ∧ b.name = a.name ∧ b.quantity = a.quantity ∧
  b.price = a.price ∧ b.category = a.category ∧
  b.payment_method = a.payment_method ∧
  ∃ d, toDatetime a.date = some d ∧ b.date = .dt d

/-- Agreement of two rows on the only columns `custom_sum` reads:
`Date` and `Price`. -/
def sameDatePrice (a b : ExpenseRow) : Prop :=
  a.date = b.date ∧ a.price = b.price

lemma priceSum_nil : priceSum [] = 0 := rfl

lemma priceSum_cons (r : ExpenseRow) (l : List ExpenseRow) :
    priceSum (r :: l) = r.price + priceSum l := by
  unfold priceSum
  rw [List.map_cons, List.sum_cons]

lemma convertRow_spec {a b : ExpenseRow} (h : convertRow a = some b) :
    convertedFrom a b := by
  unfold convertRow at h
  cases hd : toDatetime a.date with
  | none => rw [hd] at h; simp at h
  | some d =>
    rw [hd] at h
    simp only [Option.map_some'] at h
    cases h
    exact ⟨rfl, rfl, rfl, rfl, rfl, rfl, d, hd, rfl⟩

lemma convertDates_forall₂ {df df' : List ExpenseRow}
    (h : convertDates df = some df') : List.Forall₂ convertedFrom df df' := by
  induction df generalizing df' with
  | nil => cases h; exact List.Forall₂.nil
  | cons r rest ih =>
    unfold convertDates at h
    cases hr : convertRow r with
    | none => rw [hr] at h; simp at h
    | some r' =>
      cases hrest : convertDates rest with
      | none => rw [hr, hrest] at h; simp at h
      | some rest' =>
        rw [hr, hrest] at h
        cases h
        exact List.Forall₂.cons (convertRow_spec hr) (ih hrest)

lemma convertDates_isSome {df : List ExpenseRow}
    (h : ∀ r ∈ df, (toDatetime r.date).isSome) :
    ∃ df', convertDates df = some df' := by
  induction df with
  | nil => exact ⟨[], rfl⟩
  | cons r rest ih =>
    obtain ⟨rest', hrest⟩ := ih fun x hx => h x (List.mem_cons_of_mem r hx)
    have hr := h r (List.mem_cons_self r rest)
    cases hd : toDatetime r.date with
    | none => rw [hd] at hr; simp at hr
    | some d =>
      refine ⟨{ r with date := .dt d } :: rest', ?_⟩
      unfold convertDates convertRow
      rw [hd, hrest]
      rfl

lemma forall₂_mem_right {α β : Type _} {R : α → β → Prop} {l₁ : List α}
    {l₂ : List β} (h : List.Forall₂ R l₁ l₂) {b : β} (hb : b ∈ l₂) :
    ∃ a, a ∈ l₁ ∧ R a b := by
  induction h with
  | nil => cases hb
  | cons hr ht ih =>
    rcases List.mem_cons.mp hb with rfl | hb
    · exact ⟨_, List.mem_cons_self _ _, hr⟩
    · obtain ⟨a, ha, hab⟩ := ih hb
      exact ⟨a, List.mem_cons_of_mem _ ha, hab⟩

lemma selectPred_specific {tr : TimeRange} {s : String} {d : EDate}
    (hs : tr.specific_date = some s) (hd : parseDate s = some d) :
    selectPred tr = .ok fun x => x == d := by
  simp only [selectPred, hs, hd]

lemma selectPred_range {tr : TimeRange} {s e : String} {ds de : EDate}
    (h0 : tr.specific_date = none) (hs : tr.start_date = some s)
    (he : tr.end_date = some e) (hds : parseDate s = some ds)
    (hde : parseDate e = some de) :
    selectPred tr = .ok fun x => EDate.le ds x && EDate.le x de := by
  simp only [selectPred, h0, hs, he, hds, hde]

lemma selectPred_monthYear {tr : TimeRange} {m y : Int}
    (h0 : tr.specific_date = none)
    (h1 : tr.start_date = none ∨ tr.end_date = none)
    (hm : tr.month = some m) (hy : tr.year = some y) :
    selectPred tr = .ok fun x => ((x.month : Int) == m) && ((x.year : Int) == y) := by
  unfold selectPred
  rw [h0, hm, hy]
  rcases h1 with h1 | h1 <;> rw [h1] <;> cases tr.start_date <;> cases tr.end_date <;> rfl

lemma selectPred_year {tr : TimeRange} {y : Int}
    (h0 : tr.specific_date = none)
    (h1 : tr.start_date = none ∨ tr.end_date = none)
    (hm : tr.month = none) (hy : tr.year = some y) :
    selectPred tr = .ok fun x => (x.year : Int) == y := by
  unfold selectPred
  rw [h0, hm, hy]
  rcases h1 with h1 | h1 <;> rw [h1] <;> cases tr.start_date <;> cases tr.end_date <;> rfl

lemma selectPred_invalid {tr : TimeRange}
    (h0 : tr.specific_date = none)
    (h1 : tr.start_date = none ∨ tr.end_date = none)
    (hy : tr.year = none) :
    selectPred tr = .error .invalidTimeRange := by
  unfold selectPred
  rw [h0, hy]
  rcases h1 with h1 | h1 <;> rw [h1] <;> cases tr.start_date <;> cases tr.end_date <;>
    cases tr.month <;> rfl

lemma custom_sum_ok {tr : TimeRange} {df df' : List ExpenseRow}
    {p : EDate → Bool} (hconv : convertDates df = some df')
    (hp : selectPred tr = .ok p) :
    custom_sum tr df =
      (df', .ok (priceSum (df'.filter fun r => dateMatches p r.date))) := by
  unfold custom_sum
  rw [hconv, hp]

lemma custom_sum_err {tr : TimeRange} {df df' : List ExpenseRow}
    {e : CSError} (hconv : convertDates df = some df')
    (hp : selectPred tr = .error e) :
    custom_sum tr df = (df', .error e) := by
  unfold custom_sum
  rw [hconv, hp]

lemma custom_sum_convFail {tr : TimeRange} {df : List ExpenseRow}
    (hconv : convertDates df = none) :
    custom_sum tr df = (df, .error .parseError) := by
  unfold custom_sum
  rw [hconv]

lemma custom_sum_fst {tr : TimeRange} {df df' : List ExpenseRow}
    (hconv : convertDates df = some df') : (custom_sum tr df).1 = df' := by
  unfold custom_sum
  rw [hconv]
  cases selectPred tr <;> rfl

lemma convertRow_dt {r : ExpenseRow} {d : EDate} (hd : r.date = .dt d) :
    convertRow r = some r := by
  have h1 : convertRow r = some { r with date := .dt d } := by
    unfold convertRow
    rw [hd]
    rfl
  rw [h1, ← hd]

lemma convertDates_dt {df : List ExpenseRow}
    (h : ∀ r ∈ df, ∃ d, r.date = .dt d) : convertDates df = some df := by
  induction df with
  | nil => rfl
  | cons r rest ih =>
    obtain ⟨d, hd⟩ := h r (List.mem_cons_self r rest)
    unfold convertDates
    rw [convertRow_dt hd, ih fun x hx => h x (List.mem_cons_of_mem r hx)]

/-- C8: on the two-record sample ledger (49.90 on 2024-05-11 and 22.73 on
2024-05-16) the aggregator returns exactly 72.63 for the date range
2024-05-11..2024-05-16, exactly 72.63 for year 2024, and exactly 0 for
year 2023. -/
theorem custom_sum_sample_scenarios :
    (custom_sum { start_date := some "2024-05-11", end_date := some "2024-05-16" }
        sampleDf).2 = .ok (7263/100) ∧
    (custom_sum { year := some 2024 } sampleDf).2 = .ok (7263/100) ∧
    (custom_sum { year := some 2023 } sampleDf).2 = .ok 0 := by
  refine ⟨?_, ?_, rfl⟩
  · have h : (custom_sum
        { start_date := some "2024-05-11", end_date := some "2024-05-16" }
        sampleDf).2 = .ok ((499/10 : ℚ) + (2273/100 + 0)) := rfl
    exact h.trans (congrArg Except.ok (by norm_num))
  · have h : (custom_sum { year := some 2024 } sampleDf).2 =
        .ok ((499/10 : ℚ) + (2273/100 + 0)) := rfl
    exact h.trans (congrArg Except.ok (by norm_num))

/-- C1: the filter of `custom_sum` is selected by a strict priority
chain, first match winning: a present `specific_date` keeps records with
that exact date (whatever else is populated); otherwise present
`start_date` and `end_date` keep records inside the inclusive range;
otherwise present `month` and `year` keep records with exactly that
month and year; otherwise a present `year` keeps records with exactly
that year. -/
theorem custom_sum_priority_chain (tr : TimeRange) (df df' : List ExpenseRow)
    (hconv : convertDates df = some df') :
    (∀ s d, tr.specific_date = some s → parseDate s = some d →
      custom_sum tr df =
        (df', .ok (priceSum (df'.filter fun r =>
          dateMatches (fun x => x == d) r.date)))) ∧
    (∀ s e ds de, tr.specific_date = none → tr.start_date = some s →
      tr.end_date = some e → parseDate s = some ds → parseDate e = some de →
      custom_sum tr df =
        (df', .ok (priceSum (df'.filter fun r =>
          dateMatches (fun x => EDate.le ds x && EDate.le x de) r.date)))) ∧
    (∀ m y, tr.specific_date = none →
      (tr.start_date = none ∨ tr.end_date = none) →
      tr.month = some m → tr.year = some y →
      custom_sum tr df =
        (df', .ok (priceSum (df'.filter fun r =>
          dateMatches (fun x => ((x.month : Int) == m) && ((x.year : Int) == y))
            r.date)))) ∧
    (∀ y, tr.specific_date = none →
      (tr.start_date = none ∨ tr.end_date = none) →
      tr.month = none → tr.year = some y →
      custom_sum tr df =
        (df', .ok (priceSum (df'.filter fun r =>
          dateMatches (fun x => (x.year : Int) == y) r.date)))) := by
  refine ⟨?_, ?_, ?_, ?_⟩
  · intro s d hs hd
    exact custom_sum_ok hconv (selectPred_specific hs hd)
  · intro s e ds de h0 hs he hds hde
    exact custom_sum_ok hconv (selectPred_range h0 hs he hds hde)
  · intro m y h0 h1 hm hy
    exact custom_sum_ok hconv (selectPred_monthYear h0 h1 hm hy)
  · intro y h0 h1 hm hy
    exact custom_sum_ok hconv (selectPred_year h0 h1 hm hy)

/-- Witness for C1: with every key populated at once the
`specific_date` branch wins, so only the 2024-05-16 record (price
22.73) is summed. -/
theorem custom_sum_priority_chain_witness :
    custom_sum
      { specific_date := some "2024-05-16", start_date := some "2024-05-11",
        end_date := some "2024-05-16", month := some 5, year := some 2024 }
      sampleDf = (sampleConv, .ok ((2273/100 : ℚ) + 0)) :=
  ((custom_sum_priority_chain
    { specific_date := some "2024-05-16", start_date := some "2024-05-11",
      end_date := some "2024-05-16", month := some 5, year := some 2024 }
    sampleDf sampleConv rfl).1 "2024-05-16" ⟨2024, 5, 16⟩ rfl rfl).trans rfl

/-- C6: a time_range populating no recognized key combination — in
particular the empty one — makes `custom_sum` fail with the invalid
time specification error instead of returning a value. -/
theorem custom_sum_missing_keys_invalid (tr : TimeRange) (df : List ExpenseRow)
    (h0 : tr.specific_date = none)
    (h1 : tr.start_date = none ∨ tr.end_date = none)
    (hy : tr.year = none)
    (hdf : ∀ r ∈ df, (toDatetime r.date).isSome) :
    (custom_sum tr df).2 = .error .invalidTimeRange := by
  obtain ⟨df', hconv⟩ := convertDates_isSome hdf
  rw [custom_sum_err hconv (selectPred_invalid h0 h1 hy)]

/-- Witness for C6: the empty time_range raises the invalid time
specification error on the sample ledger. -/
theorem custom_sum_missing_keys_invalid_witness :
    (custom_sum {} sampleDf).2 = .error .invalidTimeRange :=
  custom_sum_missing_keys_invalid {} sampleDf rfl (Or.inl rfl) rfl (by decide)

/-- C9: a time_range populating some field but no recognized key
combination — only `start_date`, only `end_date`, or `month` without
`year` — still fails with the invalid time specification error; a
populated field alone does not avoid the error or fall back to a
broader filter. -/
theorem custom_sum_partial_keys_invalid (tr : TimeRange) (df : List ExpenseRow)
    (h0 : tr.specific_date = none)
    (h1 : tr.start_date = none ∨ tr.end_date = none)
    (hy : tr.year = none)
    (hpop : tr.start_date ≠ none ∨ tr.end_date ≠ none ∨ tr.month ≠ none)
    (hdf : ∀ r ∈ df, (toDatetime r.date).isSome) :
    (custom_sum tr df).2 = .error .invalidTimeRange := by
  obtain ⟨df', hconv⟩ := convertDates_isSome hdf
  rw [custom_sum_err hconv (selectPred_invalid h0 h1 hy)]

/-- Witness for C9: a time_range holding only `start_date` raises the
invalid time specification error on the sample ledger. -/
theorem custom_sum_partial_keys_invalid_witness :
    (custom_sum { start_date := some "2024-05-01" } sampleDf).2 =
      .error .invalidTimeRange :=
  custom_sum_partial_keys_invalid { start_date := some "2024-05-01" } sampleDf
    rfl (Or.inr rfl) rfl (Or.inl (by decide)) (by decide)

/-- C3 counterexample: the claim that `custom_sum` leaves every field of
the ledger unchanged, including the Date column, is false — the call
converts the Date column in place, so the sample ledger's Date cells
change from raw strings to datetimes. -/
theorem custom_sum_mutates_date_column :
    ((custom_sum { year := some 2024 } sampleDf).1.map ExpenseRow.date) ≠
      sampleDf.map ExpenseRow.date := by
  decide

/-- C3 amended: `custom_sum` leaves every column except `Date`
unchanged, but converts the `Date` column in place (each cell becomes
the datetime it denotes); a ledger whose `Date` cells are already
datetimes is left unchanged. -/
theorem custom_sum_frame (tr : TimeRange) (df : List ExpenseRow) :
    (∀ df', convertDates df = some df' →
      (custom_sum tr df).1 = df' ∧ List.Forall₂ convertedFrom df df') ∧
    (convertDates df = none → (custom_sum tr df).1 = df) ∧
    ((∀ r ∈ df, ∃ d, r.date = .dt d) → (custom_sum tr df).1 = df) := by
  refine ⟨?_, ?_, ?_⟩
  · intro df' hconv
    exact ⟨custom_sum_fst hconv, convertDates_forall₂ hconv⟩
  · intro hconv
    rw [custom_sum_convFail hconv]
  · intro h
    exact custom_sum_fst (convertDates_dt h)

/-- Witness for C3 (amended): on a ledger already holding datetimes the
call leaves the ledger unchanged. -/
theorem custom_sum_frame_witness :
    (custom_sum { year := some 2024 } sampleConv).1 = sampleConv :=
  (custom_sum_frame { year := some 2024 } sampleConv).2.2 (by
    intro r hr
    unfold sampleConv at hr
    rcases List.mem_cons.mp hr with rfl | hr
    · exact ⟨⟨2024, 5, 11⟩, rfl⟩
    · rcases List.mem_cons.mp hr with rfl | hr
      · exact ⟨⟨2024, 5, 16⟩, rfl⟩
      · cases hr)

/-- C7: with a recognized time_range and a convertible ledger,
`custom_sum` succeeds with the price sum of the filtered subset: exactly
0 when that subset is empty (never an error), and a non-negative value
whenever every record price is non-negative. -/
theorem custom_sum_empty_subset_zero (tr : TimeRange) (df df' : List ExpenseRow)
    (p : EDate → Bool) (hconv : convertDates df = some df')
    (hp : selectPred tr = .ok p) :
    (custom_sum tr df).2 =
      .ok (priceSum (df'.filter fun r => dateMatches p r.date)) ∧
    ((df'.filter fun r => dateMatches p r.date) = [] →
      (custom_sum tr df).2 = .ok 0) ∧
    ((∀ r ∈ df, 0 ≤ r.price) →
      ∀ s, (custom_sum tr df).2 = .ok s → 0 ≤ s) := by
  have hc := custom_sum_ok hconv hp
  refine ⟨by rw [hc], ?_, ?_⟩
  · intro hempty
    rw [hc, hempty]
    rfl
  · intro hpos s hs
    rw [hc] at hs
    have h2 : priceSum (df'.filter fun r => dateMatches p r.date) = s :=
      Except.ok.inj hs
    rw [← h2]
    unfold priceSum
    apply List.sum_nonneg
    intro x hx
    obtain ⟨r', hr', hx'⟩ := List.mem_map.mp hx
    obtain ⟨a, ha, hca⟩ :=
      forall₂_mem_right (convertDates_forall₂ hconv) (List.mem_of_mem_filter hr')
    rw [← hx', hca.2.2.2.1]
    exact hpos a ha

/-- Witness for C7: the sample ledger holds no 2023 record, so the year
2023 query returns exactly 0. -/
theorem custom_sum_empty_subset_zero_witness :
    (custom_sum { year := some 2023 } sampleDf).2 = .ok 0 :=
  (custom_sum_empty_subset_zero { year := some 2023 } sampleDf sampleConv
    (fun x => (x.year : Int) == 2023) rfl rfl).2.1 rfl

lemma yearFilter_range_pointwise (y : Nat) (d : EDate)
    (hm1 : 1 ≤ d.month) (hm2 : d.month ≤ 12)
    (hd1 : 1 ≤ d.day) (hd2 : d.day ≤ 31) :
    ((d.year : Int) == (y : Int)) =
      (EDate.le ⟨y, 1, 1⟩ d && EDate.le d ⟨y, 12, 31⟩) := by
  rw [Bool.eq_iff_iff]
  simp only [beq_iff_eq, Bool.and_eq_true, Bool.or_eq_true, EDate.le,
    Nat.blt_eq, Nat.ble_eq, Int.natCast_inj]
  omega

/-- C5: for a ledger whose dates all lie within year y (valid calendar
dates), the aggregator gives the same result for the year-y query and
for the date range from the 1st of January to the 31st of December of
year y. -/
theorem custom_sum_year_daterange_consistency (y : Nat) (s e : String)
    (df : List ExpenseRow)
    (hs : parseDate s = some ⟨y, 1, 1⟩) (he : parseDate e = some ⟨y, 12, 31⟩)
    (hdf : ∀ r ∈ df, ∀ d, toDatetime r.date = some d →
      d.year = y ∧ 1 ≤ d.month ∧ d.month ≤ 12 ∧ 1 ≤ d.day ∧ d.day ≤ 31) :
    (custom_sum { year := some (y : Int) } df).2 =
      (custom_sum { start_date := some s, end_date := some e } df).2 := by
  cases hconv : convertDates df with
  | none =>
    rw [custom_sum_convFail hconv, custom_sum_convFail hconv]
  | some df' =>
    rw [custom_sum_ok hconv (selectPred_year rfl (Or.inl rfl) rfl rfl),
      custom_sum_ok hconv (selectPred_range rfl rfl rfl hs he)]
    show Except.ok (priceSum _) = Except.ok (priceSum _)
    refine congrArg Except.ok (congrArg priceSum (List.filter_congr ?_))
    intro r hr
    obtain ⟨a, ha, hca⟩ := forall₂_mem_right (convertDates_forall₂ hconv) hr
    obtain ⟨-, -, -, -, -, -, d, hda, hrd⟩ := hca
    obtain ⟨hy, hm1, hm2, hdd1, hdd2⟩ := hdf a ha d hda
    rw [hrd]
    show ((d.year : Int) == (y : Int)) =
      (EDate.le ⟨y, 1, 1⟩ d && EDate.le d ⟨y, 12, 31⟩)
    subst hy
    exact yearFilter_range_pointwise d.year d hm1 hm2 hdd1 hdd2

/-- Witness for C5: on the sample ledger (all dates in 2024) the
year-2024 query agrees with the 2024-01-01..2024-12-31 range query. -/
theorem custom_sum_year_daterange_consistency_witness :
    (custom_sum { year := some 2024 } sampleDf).2 =
      (custom_sum
        { start_date := some "2024-01-01", end_date := some "2024-12-31" }
        sampleDf).2 :=
  custom_sum_year_daterange_consistency 2024 "2024-01-01" "2024-12-31"
    sampleDf rfl rfl (by
      intro r hr d hd
      unfold sampleDf at hr
      rcases List.mem_cons.mp hr with rfl | hr
      · cases Option.some.inj hd
        decide
      · rcases List.mem_cons.mp hr with rfl | hr
        · cases Option.some.inj hd
          decide
        · cases hr)

lemma convertDates_sameDatePrice {df₁ df₂ : List ExpenseRow}
    (h : List.Forall₂ sameDatePrice df₁ df₂) :
    (convertDates df₁ = none ∧ convertDates df₂ = none) ∨
      ∃ l₁ l₂, convertDates df₁ = some l₁ ∧ convertDates df₂ = some l₂ ∧
        List.Forall₂ sameDatePrice l₁ l₂ := by
  induction h with
  | nil => exact Or.inr ⟨[], [], rfl, rfl, .nil⟩
  | @cons a b l₁ l₂ hab ht ih =>
    obtain ⟨hd, hp⟩ := hab
    cases hda : toDatetime a.date with
    | none =>
      have hdb : toDatetime b.date = none := by rw [← hd]; exact hda
      refine Or.inl ⟨?_, ?_⟩
      · unfold convertDates convertRow
        rw [hda]
        rfl
      · unfold convertDates convertRow
        rw [hdb]
        rfl
    | some d =>
      have hdb : toDatetime b.date = some d := by rw [← hd]; exact hda
      have hra : convertRow a = some { a with date := .dt d } := by
        unfold convertRow; rw [hda]; rfl
      have hrb : convertRow b = some { b with date := .dt d } := by
        unfold convertRow; rw [hdb]; rfl
      rcases ih with ⟨h1, h2⟩ | ⟨l₁', l₂', h1, h2, hrel⟩
      · refine Or.inl ⟨?_, ?_⟩
        · unfold convertDates
          rw [hra, h1]
        · unfold convertDates
          rw [hrb, h2]
      · refine Or.inr ⟨{ a with date := .dt d } :: l₁',
          { b with date := .dt d } :: l₂', ?_, ?_, ?_⟩
        · unfold convertDates
          rw [hra, h1]
        · unfold convertDates
          rw [hrb, h2]
        · exact List.Forall₂.cons ⟨rfl, hp⟩ hrel

lemma priceSum_filter_sameDatePrice {l₁ l₂ : List ExpenseRow}
    {p : EDate → Bool} (h : List.Forall₂ sameDatePrice l₁ l₂) :
    priceSum (l₁.filter fun r => dateMatches p r.date) =
      priceSum (l₂.filter fun r => dateMatches p r.date) := by
  induction h with
  | nil => rfl
  | @cons a b t₁ t₂ hab ht ih =>
    obtain ⟨hd, hp⟩ := hab
    rw [List.filter_cons, List.filter_cons, hd]
    cases hm : dateMatches p b.date with
    | false => simpa using ih
    | true =>
      simp only [if_true, priceSum_cons, hp, ih]

/-- C2: the aggregator's value is the price sum of the filtered subset
and depends only on the Date and Price columns: two ledgers agreeing
pointwise on dates and prices produce the same result, so quantity is
never multiplied in and never influences the value. -/
theorem custom_sum_sums_price_only (tr : TimeRange) (df₁ df₂ : List ExpenseRow)
    (h : List.Forall₂ sameDatePrice df₁ df₂) :
    (custom_sum tr df₁).2 = (custom_sum tr df₂).2 ∧
    (∀ df' p, convertDates df₁ = some df' → selectPred tr = .ok p →
      (custom_sum tr df₁).2 =
        .ok (priceSum (df'.filter fun r => dateMatches p r.date))) := by
  constructor
  · rcases convertDates_sameDatePrice h with ⟨h1, h2⟩ | ⟨l₁, l₂, h1, h2, hrel⟩
    · rw [custom_sum_convFail h1, custom_sum_convFail h2]
    · cases hp : selectPred tr with
      | error e => rw [custom_sum_err h1 hp, custom_sum_err h2 hp]
      | ok p =>
        rw [custom_sum_ok h1 hp, custom_sum_ok h2 hp]
        exact congrArg Except.ok (priceSum_filter_sameDatePrice hrel)
  · intro df' p hconv hp
    rw [custom_sum_ok hconv hp]

/-- Witness for C2: changing quantities (and every other non-Date,
non-Price column) of the sample ledger leaves the year-2024 sum
unchanged. -/
theorem custom_sum_sums_price_only_witness :
    (custom_sum { year := some 2024 } sampleDf).2 =
      (custom_sum { year := some 2024 }
        [{ row1 with quantity := 17, vendor := "Uniqlo Metrotown" },
         { row2 with quantity := 29, name := "hoodie" }]).2 :=
  (custom_sum_sums_price_only { year := some 2024 } sampleDf
    [{ row1 with quantity := 17, vendor := "Uniqlo Metrotown" },
     { row2 with quantity := 29, name := "hoodie" }]
    (List.Forall₂.cons ⟨rfl, rfl⟩
      (List.Forall₂.cons ⟨rfl, rfl⟩ List.Forall₂.nil))).1

/-- C4 (code bug): the claim says a reply without tool calls yields the
plain message text without failing, but `get_sum` runs the debug print
`response.choices[0].message.tool_calls[0]` before its `tool_calls`
guard, so such a reply raises TypeError (tool_calls absent) or
IndexError (tool_calls an empty list) and no value is returned. -/
theorem get_sum_no_tool_crash (json_loads : String → Option TimeRange)
    (resp : ChatResponse) (df : List ExpenseRow) (c : Choice)
    (rest : List Choice) (hc : resp.choices = c :: rest) :
    (c.message.tool_calls = none →
      get_sum json_loads resp df = (df, .error .typeError)) ∧
    (c.message.tool_calls = some [] →
      get_sum json_loads resp df = (df, .error .indexError)) := by
  constructor
  · intro h
    simp only [get_sum, hc, h]
  · intro h
    simp only [get_sum, hc, h]

/-- Witness for C4: a concrete plain-text reply (asking for a receipt,
no tool call) makes get_sum raise TypeError at the debug print. -/
theorem get_sum_no_tool_crash_witness :
    get_sum (fun _ => none)
      { choices := [{ message :=
          { content := some "Please provide a receipt", tool_calls := none } }] }
      sampleDf = (sampleDf, .error .typeError) :=
  (get_sum_no_tool_crash (fun _ => none)
    { choices := [{ message :=
        { content := some "Please provide a receipt", tool_calls := none } }] }
    sampleDf
    { message := { content := some "Please provide a receipt", tool_calls := none } }
    [] rfl).1 rfl

/-- C10 counterexample: contrary to the claim that each payload item
yields one record with an empty-string default for a missing name, an
item whose name key is absent makes the append loop raise KeyError at
its progress print, and no record is created. -/
theorem buildNewRows_nameless_item :
    buildNewRows "2024-05-18"
      { vendor := some "Uniqlo Metrotown", date := some "2024-05-18",
        items := [
          { name := none, price := some (499/10), quantity := some 1,
            category := some "clothing" }],
        payment_method := some "credit" } = .error .keyError := rfl

lemma appendLoop_named (today : String) (rd : ReceiptData)
    (l : List ReceiptItem) (h : ∀ item ∈ l, item.name.isSome) :
    appendLoop today rd l = .ok (l.map (makeNewRow today rd)) := by
  induction l with
  | nil => rfl
  | cons item rest ih =>
    have hn := h item (List.mem_cons_self item rest)
    cases hi : item.name with
    | none => rw [hi] at hn; simp at hn
    | some n =>
      unfold appendLoop
      rw [hi, ih fun x hx => h x (List.mem_cons_of_mem item hx)]
      rfl

/-- C10 amended: provided every item of the payload carries a name key,
the append loop creates exactly one row per item and fills absent
fields with the fixed defaults — date: today's date, vendor: empty
string, quantity: 1, price: 0, category: "Uncategorized", payment
method: "Unknown" — and "Uncategorized" and "Unknown" lie outside the
category and payment-method enums of the extraction schema. An item
without a name key instead raises KeyError at the progress print, so
the declared empty-string default for the item name is unreachable. -/
theorem buildNewRows_defaults (today : String) (rd : ReceiptData)
    (h : ∀ item ∈ rd.items, item.name.isSome) :
    (buildNewRows today rd = .ok (rd.items.map (makeNewRow today rd))) ∧
    (∀ item, item.quantity = none → (makeNewRow today rd item).quantity = 1) ∧
    (∀ item, item.price = none → (makeNewRow today rd item).price = 0) ∧
    (∀ item, item.category = none →
      (makeNewRow today rd item).category = "Uncategorized") ∧
    (rd.date = none → ∀ item, (makeNewRow today rd item).date = today) ∧
    (rd.vendor = none → ∀ item, (makeNewRow today rd item).vendor = "") ∧
    (rd.payment_method = none →
      ∀ item, (makeNewRow today rd item).payment_method = "Unknown") ∧
    "Uncategorized" ∉ itemizeCategories ∧ "Unknown" ∉ paymentMethods := by
  refine ⟨appendLoop_named today rd rd.items h,
    ?_, ?_, ?_, ?_, ?_, ?_, by decide, by decide⟩
  · intro item hq
    simp [makeNewRow, hq]
  · intro item hq
    simp [makeNewRow, hq]
  · intro item hq
    simp [makeNewRow, hq]
  · intro hd item
    simp [makeNewRow, hd]
  · intro hd item
    simp [makeNewRow, hd]
  · intro hd item
    simp [makeNewRow, hd]

/-- Witness for C10 (amended): a one-item payload with a name but every
other field absent yields exactly one row holding all the defaults. -/
theorem buildNewRows_defaults_witness :
    buildNewRows "2024-05-18"
      { vendor := none, date := none,
        items := [
          { name := some "hoodie", price := none, quantity := none,
            category := none }],
        payment_method := none } =
      .ok [
        { date := "2024-05-18", vendor := "", name := "hoodie",
          quantity := 1, price := 0, category := "Uncategorized",
          payment_method := "Unknown" }] :=
  ((buildNewRows_defaults "2024-05-18"
    { vendor := none, date := none,
      items := [
        { name := some "hoodie", price := none, quantity := none,
          category := none }],
      payment_method := none } (by decide)).1).trans rfl

end Gpt4o
